import Mathlib

/-!
Verification development for the `ratata` terminal application runtime.

The Rust sources are shallowly embedded:
* `src/events.rs`    : the event listener's forwarding filter (`listen`);
* `src/message.rs`   : `Message` and the `From<Event> for Message` conversion;
* `src/command.rs`   : `Command` and the object-safe crossterm command erasure;
* `src/application.rs`: the application state, `activate_screen`,
  `handle_command`, `try_read_event`, `shutdown_screens`, `run`, and the
  builder's screen registration.

Screen type identifiers (`TypeId`) are modelled as `Nat`; a screen instance
(`Box<dyn Screen>`) is modelled as a `Nat`-valued abstract state whose `update`
behaviour is supplied by an environment function.  External effects (raw mode
toggling, crossterm command execution) are modelled by an environment that
fixes their success and by recording outputs in the state.
-/

namespace Ratata

/-! ## Events (`src/events.rs`, `src/message.rs`) -/

/-- Crossterm `KeyEventKind`. -/
inductive KeyEventKind where
  | press
  | release
  | repeated
deriving DecidableEq, Repr

/-- Crossterm `KeyEvent`: the kind plus the fields `Message` keeps
(code, modifiers, state), modelled abstractly as naturals. -/
structure KeyEvent where
  code : Nat
  modifiers : Nat
  kind : KeyEventKind
  state : Nat
deriving DecidableEq, Repr

/-- Crossterm `Event` as consumed by the listener and `Message::from`. -/
inductive Event where
  | focusGained
  | focusLost
  | key (k : KeyEvent)
  | mouse (m : Nat)
  | paste (s : String)
  | resize (x y : Nat)
deriving DecidableEq, Repr

/-- The forwarding decision of the listener worker in `events::listen`
(src/events.rs lines 39-44): an event is sent on the channel exactly when it
survives the guard

  `if !matches!(event, Event::Key(key) if key.kind == KeyEventKind::Press) { continue; }`

so it is sent iff it is a key event whose kind is `Press`. -/
def listenForwards (e : Event) : Bool :=
  match e with
  | .key k => k.kind = KeyEventKind.press
  | _ => false

/-- `Message` (src/message.rs), with the `paste` feature enabled. -/
inductive Message where
  | key (code modifiers state : Nat)
  | mouse (m : Nat)
  | resize (x y : Nat)
  | focusGained
  | focusLost
  | paste (s : String)
  | shutdown
  | tick
deriving DecidableEq, Repr

/-- `impl From<Event> for Message` (src/message.rs lines 25-41);
the key event's `kind` field is dropped. -/
def Message.ofEvent : Event → Message
  | .focusGained => .focusGained
  | .focusLost => .focusLost
  | .key k => .key k.code k.modifiers k.state
  | .mouse m => .mouse m
  | .paste s => .paste s
  | .resize x y => .resize x y

/-! ## Commands (`src/command.rs`) -/

/-- A crossterm command payload for the interpreter: the ANSI text it writes
on success, or `none` when writing it fails (an `io::Error`). -/
def CrosstermOp := Option String

/-- `Command` (src/command.rs lines 18-25).  `screen` carries the target
screen key (`TypeId`), `crossterm` the erased terminal-control operation. -/
inductive Command where
  | batch (cmds : List Command)
  | screen (k : Nat)
  | enableRawMode
  | disableRawMode
  | crossterm (op : Option String)
  | quit
deriving Repr

/-! ## The object-safe crossterm command erasure (`src/command.rs` lines 41-57)

`crossterm::Command::write_ansi` is generic over the writer
(`fn write_ansi(&self, f: &mut impl fmt::Write) -> fmt::Result`), so the trait
is not object safe.  A text sink (`fmt::Write`) is modelled as a state type
with a `write_str` operation; a crossterm command is modelled by its
`write_ansi` behaviour, polymorphic over the sink. -/

/-- A text sink: the `fmt::Write` capability over a sink state `σ`.
`Except Unit` models `fmt::Result`. -/
structure FmtWrite (σ : Type) where
  write_str : σ → String → Except Unit σ

/-- A concrete crossterm command: its `write_ansi` method, polymorphic over
the text sink it is handed (models `trait crossterm::Command`). -/
structure CrosstermCommand : Type 1 where
  write_ansi : {σ : Type} → FmtWrite σ → σ → Except Unit σ

/-- The blanket adapter `impl<T: crossterm::Command> ObjectSafeCommand for T`
(src/command.rs lines 45-49): `object_safe_write_ansi` delegates to the
command's own `write_ansi` on the same sink. -/
def object_safe_write_ansi (c : CrosstermCommand) {σ : Type}
    (w : FmtWrite σ) (s : σ) : Except Unit σ :=
  c.write_ansi w s

/-- `ObjectSafeCrosstermCommand` (src/command.rs line 51): a box holding a
`dyn ObjectSafeCommand`.  The blanket impl is the only implementation of
`ObjectSafeCommand`, so the boxed value is some concrete command. -/
structure ObjectSafeCrosstermCommand : Type 1 where
  inner : CrosstermCommand

/-- `impl crossterm::Command for ObjectSafeCrosstermCommand`
(src/command.rs lines 53-57): `write_ansi` delegates to the erased
`object_safe_write_ansi`. -/
def ObjectSafeCrosstermCommand.write_ansi (o : ObjectSafeCrosstermCommand)
    {σ : Type} (w : FmtWrite σ) (s : σ) : Except Unit σ :=
  object_safe_write_ansi o.inner w s

/-! ## Application state (`src/application.rs`) -/

/-- `RuntimeError` (src/application.rs lines 29-39).  `missingScreen` carries
the key of the screen that could not be found. -/
inductive RuntimeError where
  | eventSourceDisconnected
  | missingScreen (k : Nat)
  | crosstermCommandExecution
  | rawMode
deriving DecidableEq, Repr

/-- A screen entry: key (`TypeId`) paired with the screen instance's state. -/
def ScreenEntry := Nat × Nat

/-- The loop-relevant fields of `Application` (src/application.rs lines
43-55).  The screen registry `HashMap<TypeId, Box<dyn Screen>>` is modelled as
an association list with (invariantly) distinct keys; `rawMode` and `sink`
record the external effects of the raw-mode toggles and of executed crossterm
commands. -/
structure AppState where
  screens : List (Nat × Nat)
  active_screen_entry : Option (Nat × Nat)
  previous_screen_entry : Option (Nat × Nat)
  exiting : Bool
  rawMode : Bool
  sink : List String
deriving DecidableEq, Repr

/-- `Builder::screen` (src/application.rs lines 186-189): insert the screen
under its key, silently replacing any previous registration with that key
(`HashMap::insert`). -/
def registerScreen (k v : Nat) (screens : List (Nat × Nat)) : List (Nat × Nat) :=
  (k, v) :: screens.filter (fun p => !(p.1 == k))

/-- `Builder::build` (src/application.rs lines 211-233) restricted to the
loop-relevant fields: fold the registrations in order into an empty registry;
both slots empty, not exiting. -/
def build (regs : List (Nat × Nat)) : AppState :=
  { screens := regs.foldl (fun m p => registerScreen p.1 p.2 m) []
    active_screen_entry := none
    previous_screen_entry := none
    exiting := false
    rawMode := false
    sink := [] }

/-- `Application::activate_screen` (src/application.rs lines 83-95):
remove the requested entry from the registry (`get_screen`, failing with the
key when absent), make it the new active entry, demote the old active entry to
the previous slot, and re-insert the displaced previous entry (if any) into
the registry. -/
def activate_screen (k : Nat) (s : AppState) : Except Nat AppState :=
  match s.screens.find? (fun p => p.1 == k) with
  | none => .error k
  | some entry =>
    let remaining := s.screens.eraseP (fun p => p.1 == k)
    let base : AppState :=
      { s with
        screens := remaining
        active_screen_entry := some entry
        previous_screen_entry := s.active_screen_entry }
    match s.previous_screen_entry with
    | none => .ok base
    | some replaced => .ok { base with screens := replaced :: remaining }

/-- The runtime environment: the screens' `update` behaviour (a screen state
and a message produce the new screen state and an optional command), whether
the raw-mode toggles succeed, and the startup/shutdown callbacks
(`fn() -> Command`, modelled by the command they return). -/
structure Env where
  upd : Nat → Message → Nat × Option Command
  enableRawOk : Bool
  disableRawOk : Bool
  startup : Option Command
  shutdown : Option Command

mutual

/-- `Application::handle_command` (src/application.rs lines 97-116).  The
state is threaded through even on failure, matching Rust's in-place mutation
of `self`: a failing element leaves the effects already applied. -/
def handle_command (env : Env) : Command → AppState → AppState × Option RuntimeError
  | .batch cmds, s => handle_commands env cmds s
  | .enableRawMode, s =>
      if env.enableRawOk then ({ s with rawMode := true }, none)
      else (s, some .rawMode)
  | .disableRawMode, s =>
      if env.disableRawOk then ({ s with rawMode := false }, none)
      else (s, some .rawMode)
  | .screen k, s =>
      match activate_screen k s with
      | .ok s1 => (s1, none)
      | .error j => (s, some (.missingScreen j))
  | .crossterm op, s =>
      match op with
      | some out => ({ s with sink := s.sink ++ [out] }, none)
      | none => (s, some .crosstermCommandExecution)
  | .quit, s => ({ s with exiting := true }, none)

/-- The `for command in commands { self.handle_command(command)?; }` loop of
the `Batch` arm: execute in order, stop at the first failure and propagate
its fault. -/
def handle_commands (env : Env) : List Command → AppState → AppState × Option RuntimeError
  | [], s => (s, none)
  | c :: cs, s =>
      match handle_command env c s with
      | (s1, none) => handle_commands env cs s1
      | (s1, some e) => (s1, some e)

end

/-! ## The run loop (`src/application.rs` lines 118-163) -/

/-- One observation of the listener channel by `try_recv`. -/
inductive ChannelRead where
  | event (e : Event)
  | empty
  | disconnected
deriving DecidableEq, Repr

/-- `Application::try_read_event` (src/application.rs lines 63-71):
a received event is `some`, an empty channel is `none`, a disconnected
channel is the `EventSourceDisconnected` fault. -/
def try_read_event : ChannelRead → Except RuntimeError (Option Event)
  | .event e => .ok (some e)
  | .empty => .ok none
  | .disconnected => .error .eventSourceDisconnected

/-- Observable actions of the run loop, recorded as a trace:
message deliveries to a screen (by key), renders (by key), the execution of
the shutdown callback's command, and setting the listener's cancellation
flag. -/
inductive TraceEv where
  | msgDelivered (k : Nat) (m : Message)
  | rendered (k : Nat)
  | shutdownCmdRun
  | cancelSet
deriving DecidableEq, Repr

/-- `TraceEv.msgDelivered k .shutdown`, the shutdown notification of screen
`k` emitted by `shutdown_screens`. -/
def shutdownDelivered (k : Nat) : TraceEv := .msgDelivered k .shutdown

/-- Is a trace event a message delivery? -/
def TraceEv.isMsg : TraceEv → Bool
  | .msgDelivered _ _ => true
  | _ => false

/-- `Application::shutdown_screens` (src/application.rs lines 73-77): deliver
`Message::Shutdown` to every screen held in the registry (and only those),
ignoring any returned command; the active and previous slots are not
visited. -/
def shutdown_screens (env : Env) (s : AppState) : AppState :=
  { s with screens := s.screens.map (fun p => (p.1, (env.upd p.2 .shutdown).1)) }

/-- The trace of `shutdown_screens`: one shutdown delivery per registry
entry, in registry order. -/
def shutdownTrace (s : AppState) : List TraceEv :=
  s.screens.map (fun p => shutdownDelivered p.1)

/-- Outcome of the whole run loop.  `panicked` marks a hit of one of the
`self.active_screen_entry.as_mut().unwrap()` expressions with an empty active
slot (a Rust panic); `outOfFuel` means the supplied list of channel
observations was exhausted while the loop would have kept running. -/
inductive RunResult where
  | ok (s : AppState)
  | fault (e : RuntimeError)
  | panicked
  | outOfFuel (s : AppState)
deriving DecidableEq, Repr

/-- Outcome of a single `Running` iteration. -/
inductive IterOut where
  | next (s : AppState)
  | fault (e : RuntimeError)
  | panicked
deriving DecidableEq, Repr

/-- The body of a `Running` iteration after the message is fixed
(src/application.rs lines 145-153): deliver the message to the unwrapped
active screen, execute the returned command (aborting on a fault), then
render the then-active screen, unwrapped again. -/
def deliver (env : Env) (message : Message) (s : AppState) : List TraceEv × IterOut :=
  match s.active_screen_entry with
  | none => ([], .panicked)
  | some (k, v) =>
    let stepped := env.upd v message
    let s1 : AppState := { s with active_screen_entry := some (k, stepped.1) }
    let afterCmd : AppState × Option RuntimeError :=
      match stepped.2 with
      | none => (s1, none)
      | some cmd => handle_command env cmd s1
    match afterCmd with
    | (_, some e) => ([TraceEv.msgDelivered k message], .fault e)
    | (s2, none) =>
      match s2.active_screen_entry with
      | none => ([TraceEv.msgDelivered k message], .panicked)
      | some (k2, _) => ([TraceEv.msgDelivered k message, TraceEv.rendered k2], .next s2)

/-- One `Running` iteration of `Application::run` (src/application.rs lines
134-153), given the channel observation of this iteration: pace (not
modelled: real time), read the channel (`?` aborts on disconnection),
synthesize `Tick` when empty, then deliver. -/
def runIter (env : Env) (r : ChannelRead) (s : AppState) : List TraceEv × IterOut :=
  match try_read_event r with
  | .error e => ([], .fault e)
  | .ok read =>
    let message := match read with
      | some event => Message.ofEvent event
      | none => Message.tick
    deliver env message s

/-- The shutdown sequence at the tail of `Application::run`
(src/application.rs lines 129-162, the `break self.shutdown_screens()` exit
path): notify the registry's screens, execute the shutdown callback's
command (a failure aborts with that fault, before the cancellation flag),
set the listener's cancellation flag, and return. -/
def shutdownSeq (env : Env) (s : AppState) : List TraceEv × RunResult :=
  let s1 := shutdown_screens env s
  match env.shutdown with
  | none => (shutdownTrace s ++ [TraceEv.cancelSet], .ok s1)
  | some cmd =>
    match handle_command env cmd s1 with
    | (s2, none) =>
        (shutdownTrace s ++ [TraceEv.shutdownCmdRun, TraceEv.cancelSet], .ok s2)
    | (_, some e) =>
        (shutdownTrace s ++ [TraceEv.shutdownCmdRun], .fault e)

/-- The loop of `Application::run` (src/application.rs lines 129-162),
driven by a list of channel observations (one per iteration).  When the
exiting flag is observed at the top of an iteration the loop breaks into the
shutdown sequence. -/
def runLoop (env : Env) : List ChannelRead → AppState → List TraceEv × RunResult
  | reads, s =>
    if s.exiting then
      shutdownSeq env s
    else
      match reads with
      | [] => ([], .outOfFuel s)
      | r :: rest =>
        match runIter env r s with
        | (tr, .fault e) => (tr, .fault e)
        | (tr, .panicked) => (tr, .panicked)
        | (tr, .next s1) =>
          let cont := runLoop env rest s1
          (tr ++ cont.1, cont.2)

/-- `Application::run` (src/application.rs lines 118-163): execute the
startup callback's command, activate the initial screen (a missing key is a
fatal fault), then enter the loop. -/
def run (env : Env) (initial : Nat) (reads : List ChannelRead) (s0 : AppState) :
    List TraceEv × RunResult :=
  let afterStartup : AppState × Option RuntimeError :=
    match env.startup with
    | none => (s0, none)
    | some cmd => handle_command env cmd s0
  match afterStartup with
  | (_, some e) => ([], .fault e)
  | (s1, none) =>
    match activate_screen initial s1 with
    | .error j => ([], .fault (.missingScreen j))
    | .ok s2 => runLoop env reads s2

/-! ## Screen accounting (claims about registry/active/previous keys) -/

/-- The key carried by an optional slot occupant, as a list. -/
def slotKeys : Option (Nat × Nat) → List Nat
  | none => []
  | some p => [p.1]

/-- All keys currently held by the state: registry keys, then the active
slot's key, then the previous slot's key. -/
def stateKeys (s : AppState) : List Nat :=
  s.screens.map Prod.fst ++ slotKeys s.active_screen_entry
    ++ slotKeys s.previous_screen_entry

/-- One activation attempt as the run loop performs it: a failure leaves the
state untouched. -/
def applyAct (s : AppState) (k : Nat) : AppState :=
  match activate_screen k s with
  | .ok s1 => s1
  | .error _ => s

/-- A sequence of activation attempts, in order. -/
def applyActs (acts : List Nat) (s : AppState) : AppState :=
  acts.foldl applyAct s

/-! ## Concrete instances used by witnesses -/

/-- An inert environment: screens consume every message without reacting,
both raw-mode toggles succeed, no callbacks are configured. -/
def envW : Env :=
  { upd := fun v _ => (v, none)
    enableRawOk := true
    disableRawOk := true
    startup := none
    shutdown := none }

/-- The empty application state: nothing registered, both slots empty. -/
def sEmpty : AppState :=
  { screens := []
    active_screen_entry := none
    previous_screen_entry := none
    exiting := false
    rawMode := false
    sink := [] }

/-- A state with screen 1 active, used by witnesses of the loop claims. -/
def sActive : AppState :=
  { screens := []
    active_screen_entry := some (1, 10)
    previous_screen_entry := none
    exiting := false
    rawMode := false
    sink := [] }
/-- An environment whose shutdown callback produces a command that fails
(activating the never-registered key 0). -/
def envFailShutdown : Env :=
  { upd := fun v _ => (v, none)
    enableRawOk := true
    disableRawOk := true
    startup := none
    shutdown := some (.screen 0) }
/-- A state observed with the exiting flag set, empty registry, screen 1
active. -/
def sExiting : AppState :=
  { screens := []
    active_screen_entry := some (1, 10)
    previous_screen_entry := none
    exiting := true
    rawMode := false
    sink := [] }
/-- An environment whose shutdown callback produces `Quit`, which always
succeeds. -/
def envQuitShutdown : Env :=
  { upd := fun v _ => (v, none)
    enableRawOk := true
    disableRawOk := true
    startup := none
    shutdown := some .quit }
/-- A state observed with the exiting flag set, screens 2 and 3 in the
registry, screen 1 active and screen 4 previous. -/
def sExiting2 : AppState :=
  { screens := [(2, 20), (3, 30)]
    active_screen_entry := some (1, 10)
    previous_screen_entry := some (4, 40)
    exiting := true
    rawMode := false
    sink := [] }

/-! ## Theorems -/

/-- C1: the event listener's forwarding filter.  The key-press half of the
claim holds: a key event is forwarded iff its kind is `Press`.  The non-key
half fails: every mouse, resize, focus and paste event is dropped by the
listener's guard, although the claim (and the code's own comment, which only
mentions dropping `Release` and `Repeat` key events) says they are forwarded
unfiltered. -/
theorem listen_filter_drops_non_key_events :
    (∀ k : KeyEvent, listenForwards (.key k) = true ↔ k.kind = KeyEventKind.press) ∧
    listenForwards (.mouse 0) = false ∧
    listenForwards (.resize 80 24) = false ∧
    listenForwards .focusGained = false ∧
    listenForwards .focusLost = false ∧
    listenForwards (.paste "x") = false := by
  refine ⟨fun k => ?_, rfl, rfl, rfl, rfl, rfl⟩
  simp [listenForwards]

/-- C7: invoking `write_ansi` on the erased wrapper built from a concrete
crossterm command `c` behaves exactly like invoking `c.write_ansi` directly,
on every text sink: the blanket adapter and the wrapper are pure
delegation. -/
theorem erased_command_write_ansi_eq (c : CrosstermCommand) {σ : Type}
    (w : FmtWrite σ) (s : σ) :
    (ObjectSafeCrosstermCommand.mk c).write_ansi w s = c.write_ansi w s :=
  rfl

/-- C8: executing `Batch([])` succeeds and leaves the whole application state
unchanged. -/
theorem batch_empty_noop (env : Env) (s : AppState) :
    handle_command env (.batch []) s = (s, none) :=
  rfl

/-- C3: activating a key that is not in the registry fails with
`MissingScreen(k)` and returns the state exactly as it was: the registry, the
active slot and the previous slot are untouched. -/
theorem missing_screen_atomic (env : Env) (k : Nat) (s : AppState)
    (h : ∀ p ∈ s.screens, p.1 ≠ k) :
    handle_command env (.screen k) s = (s, some (.missingScreen k)) := by
  have hf : s.screens.find? (fun p => p.1 == k) = none := by
    apply List.find?_eq_none.mpr
    intro p hp
    simpa using h p hp
  simp [handle_command, activate_screen, hf]

/-- Witness for C3 at a concrete input: activating key 99 on the empty state
fails with `MissingScreen 99` and returns the same state. -/
theorem missing_screen_atomic_witness :
    handle_command envW (.screen 99) sEmpty = (sEmpty, some (.missingScreen 99)) :=
  missing_screen_atomic envW 99 sEmpty (by intro p hp; simp [sEmpty] at hp)

/-- Executing an appended batch list whose first part succeeds continues with
the second part from the reached state. -/
theorem handle_commands_append (env : Env) (l1 l2 : List Command)
    (s s1 : AppState) (h : handle_commands env l1 s = (s1, none)) :
    handle_commands env (l1 ++ l2) s = handle_commands env l2 s1 := by
  induction l1 generalizing s with
  | nil =>
    simp only [handle_commands] at h
    cases h
    rfl
  | cons c cs ih =>
    simp only [handle_commands] at h ⊢
    rcases hc : handle_command env c s with ⟨s2, r⟩
    rw [hc] at h
    cases r with
    | none => exact ih s2 h
    | some e => cases h

/-- C5: batch elements run strictly in order; the first failing element's
fault becomes the batch's result, the effects of the earlier (successful)
elements are kept (the resulting state is the failing element's state,
reached from the state after the prefix), and the elements after the failure
are never executed (the result does not depend on them). -/
theorem batch_first_failure (env : Env) (pre post : List Command) (c : Command)
    (s s1 : AppState) (e : RuntimeError)
    (hpre : handle_commands env pre s = (s1, none))
    (hc : (handle_command env c s1).2 = some e) :
    handle_command env (.batch (pre ++ c :: post)) s
      = ((handle_command env c s1).1, some e) := by
  have hstep : handle_command env (.batch (pre ++ c :: post)) s
      = handle_commands env (c :: post) s1 := by
    simp only [handle_command]
    exact handle_commands_append env pre (c :: post) s s1 hpre
  rw [hstep]
  rcases hcc : handle_command env c s1 with ⟨s2, r⟩
  rw [hcc] at hc
  cases hc
  simp only [handle_commands, hcc]

/-- Witness for C5 at a concrete input: in
`Batch([Quit, Screen 5, Crossterm "x"])` on the empty state, `Quit` applies
its effect, `Screen 5` fails with `MissingScreen 5`, the batch returns that
fault with the earlier effect kept, and the trailing command is ignored. -/
theorem batch_first_failure_witness :
    handle_commands envW [Command.quit] sEmpty
      = ({ sEmpty with exiting := true }, none) ∧
    (handle_command envW (.screen 5) { sEmpty with exiting := true }).2
      = some (.missingScreen 5) ∧
    handle_command envW
        (.batch ([Command.quit] ++ Command.screen 5 :: [Command.crossterm (some "x")]))
        sEmpty
      = ((handle_command envW (.screen 5) { sEmpty with exiting := true }).1,
          some (.missingScreen 5)) :=
  ⟨rfl, rfl,
    batch_first_failure envW [Command.quit] [Command.crossterm (some "x")]
      (Command.screen 5) sEmpty { sEmpty with exiting := true }
      (.missingScreen 5) rfl rfl⟩

/-- Mapping keys commutes with erasing the entry for key `k`. -/
theorem keys_eraseP (k : Nat) (l : List (Nat × Nat)) :
    (l.eraseP (fun p => p.1 == k)).map Prod.fst
      = (l.map Prod.fst).eraseP (fun x => x == k) := by
  induction l with
  | nil => rfl
  | cons p t ih =>
    by_cases h : p.1 = k
    · simp [List.eraseP_cons, h]
    · simp [List.eraseP_cons, h, ih]

/-- Mapping keys commutes with filtering out the entries for key `k`. -/
theorem keys_filter_ne (k : Nat) (l : List (Nat × Nat)) :
    (l.filter (fun p => !(p.1 == k))).map Prod.fst
      = (l.map Prod.fst).filter (fun x => !(x == k)) := by
  induction l with
  | nil => rfl
  | cons p t ih =>
    by_cases h : p.1 = k <;> simp [List.filter_cons, h, ih]

/-- A list containing `k` is a permutation of `k` put back in front of the
list with the first occurrence of `k` erased. -/
theorem perm_cons_eraseP_self (k : Nat) (l : List Nat) (h : k ∈ l) :
    l.Perm (k :: l.eraseP (fun x => x == k)) := by
  induction l with
  | nil => cases h
  | cons a t ih =>
    by_cases ha : a = k
    · subst ha
      simp [List.eraseP_cons]
    · have ht : k ∈ t := by
        rcases List.mem_cons.mp h with h1 | h1
        · exact absurd h1.symm ha
        · exact h1
      have step : (a :: t).Perm (a :: (k :: t.eraseP (fun x => x == k))) :=
        (ih ht).cons a
      refine step.trans ?_
      have : (a :: k :: t.eraseP (fun x => x == k)).Perm
          (k :: a :: t.eraseP (fun x => x == k)) := List.Perm.swap k a _
      refine this.trans ?_
      simp [List.eraseP_cons, ha]

/-- A successful activation permutes the keys held by the state: nothing is
duplicated, nothing is lost. -/
theorem activate_screen_perm (k : Nat) (s s1 : AppState)
    (h : activate_screen k s = .ok s1) :
    (stateKeys s1).Perm (stateKeys s) := by
  unfold activate_screen at h
  rcases hf : s.screens.find? (fun p => p.1 == k) with _ | entry <;> rw [hf] at h
  · cases h
  · have hk : entry.1 = k := by
      have := List.find?_some hf
      simpa using this
    have hmem : k ∈ s.screens.map Prod.fst := by
      refine List.mem_map.mpr ⟨entry, List.mem_of_find?_eq_some hf, hk⟩
    have hKs : (s.screens.map Prod.fst).Perm
        (k :: (s.screens.map Prod.fst).eraseP (fun x => x == k)) :=
      perm_cons_eraseP_self k _ hmem
    have h1 : ∀ A : List Nat,
        (((s.screens.map Prod.fst).eraseP (fun x => x == k) ++ [k]) ++ A).Perm
          (k :: ((s.screens.map Prod.fst).eraseP (fun x => x == k) ++ A)) := by
      intro A
      simp only [List.append_assoc, List.singleton_append]
      exact List.perm_middle
    have he : slotKeys (some entry) = [k] := by simp [slotKeys, hk]
    rcases hp : s.previous_screen_entry with _ | q <;> rw [hp] at h <;> cases h
    · simp only [stateKeys, hp, keys_eraseP, List.append_nil]
      have hnil : slotKeys (none : Option (Nat × Nat)) = [] := rfl
      rw [he, hnil, List.append_nil]
      exact (h1 _).trans ((hKs.append_right _).symm)
    · simp only [stateKeys, hp, keys_eraseP, List.map_cons, List.cons_append]
      have hq : slotKeys (some q) = [q.1] := rfl
      rw [he, hq]
      have h4 : ((s.screens.map Prod.fst) ++ slotKeys s.active_screen_entry).Perm
          (k :: ((s.screens.map Prod.fst).eraseP (fun x => x == k)
            ++ slotKeys s.active_screen_entry)) :=
        hKs.append_right _
      have h3 := List.perm_append_singleton q.1
        ((s.screens.map Prod.fst) ++ slotKeys s.active_screen_entry)
      exact ((h1 _).cons q.1).trans (((h4.cons q.1).symm).trans h3.symm)

/-- One activation attempt (successful or failed) permutes the held keys. -/
theorem applyAct_perm (s : AppState) (k : Nat) :
    (stateKeys (applyAct s k)).Perm (stateKeys s) := by
  unfold applyAct
  rcases h : activate_screen k s with j | s1
  · exact List.Perm.refl _
  · exact activate_screen_perm k s s1 h

/-- Any sequence of activation attempts permutes the held keys. -/
theorem applyActs_perm (acts : List Nat) (s : AppState) :
    (stateKeys (applyActs acts s)).Perm (stateKeys s) := by
  induction acts generalizing s with
  | nil => exact List.Perm.refl _
  | cons a t ih =>
    have : applyActs (a :: t) s = applyActs t (applyAct s a) := rfl
    rw [this]
    exact (ih (applyAct s a)).trans (applyAct_perm s a)

/-- Registration keeps the registry's keys duplicate-free. -/
theorem registerScreen_keys_nodup (k v : Nat) (m : List (Nat × Nat))
    (h : (m.map Prod.fst).Nodup) :
    ((registerScreen k v m).map Prod.fst).Nodup := by
  simp only [registerScreen, List.map_cons, keys_filter_ne]
  refine List.nodup_cons.mpr ⟨?_, h.filter _⟩
  intro hmem
  have := (List.mem_filter.mp hmem).2
  simp at this

/-- Membership in the registry's keys after one registration. -/
theorem registerScreen_keys_mem (k v j : Nat) (m : List (Nat × Nat)) :
    j ∈ (registerScreen k v m).map Prod.fst
      ↔ j = k ∨ j ∈ m.map Prod.fst := by
  simp only [registerScreen, List.map_cons, keys_filter_ne, List.mem_cons,
    List.mem_filter]
  by_cases h : j = k <;> simp [h]

/-- Folding registrations into a duplicate-free registry keeps the keys
duplicate-free. -/
theorem buildFold_nodup (regs : List (Nat × Nat)) (acc : List (Nat × Nat))
    (h : (acc.map Prod.fst).Nodup) :
    (((regs.foldl (fun m p => registerScreen p.1 p.2 m) acc)).map Prod.fst).Nodup := by
  induction regs generalizing acc with
  | nil => exact h
  | cons p t ih => exact ih _ (registerScreen_keys_nodup p.1 p.2 acc h)

/-- Membership in the registry's keys after folding a registration list. -/
theorem buildFold_mem (regs : List (Nat × Nat)) (acc : List (Nat × Nat)) (j : Nat) :
    j ∈ ((regs.foldl (fun m p => registerScreen p.1 p.2 m) acc)).map Prod.fst
      ↔ j ∈ regs.map Prod.fst ∨ j ∈ acc.map Prod.fst := by
  induction regs generalizing acc with
  | nil => simp
  | cons p t ih =>
    simp only [List.foldl_cons, List.map_cons, List.mem_cons]
    rw [ih]
    rw [registerScreen_keys_mem]
    tauto

/-- C2: for every sequence of registrations followed by every sequence of
successful or failed activations, the keys held by the registry, the active
slot and the previous slot are pairwise distinct (the concatenated key list
has no duplicates, so the three locations are pairwise disjoint), and a key
is held somewhere iff it was ever registered: no screen is duplicated or lost
by any activation. -/
theorem screen_accounting (regs : List (Nat × Nat)) (acts : List Nat) :
    (stateKeys (applyActs acts (build regs))).Nodup ∧
    ∀ j, j ∈ stateKeys (applyActs acts (build regs)) ↔ j ∈ regs.map Prod.fst := by
  have hperm := applyActs_perm acts (build regs)
  have hkeys : stateKeys (build regs)
      = ((regs.foldl (fun m p => registerScreen p.1 p.2 m) [])).map Prod.fst := by
    simp [stateKeys, build, slotKeys]
  constructor
  · refine hperm.nodup_iff.mpr ?_
    rw [hkeys]
    exact buildFold_nodup regs [] (by simp)
  · intro j
    rw [hperm.mem_iff, hkeys, buildFold_mem]
    simp


/-- When the exiting flag is observed at the top of an iteration, the loop
breaks into the shutdown sequence regardless of the pending channel reads. -/
theorem runLoop_exiting (env : Env) (reads : List ChannelRead) (s : AppState)
    (he : s.exiting = true) : runLoop env reads s = shutdownSeq env s := by
  cases reads <;> simp [runLoop, he]

/-- C4: in a `Running` iteration (exiting flag clear, active slot occupied),
an empty channel makes the iteration deliver exactly one message to the
active screen, namely the synthesized `Tick` (the filtered trace is that one
delivery, never zero and never two); a closed channel makes the iteration,
and the whole loop, abort at once with the `EventSourceDisconnected` fault
with an empty trace: no shutdown notification, no shutdown command, no
cancellation signal is run. -/
theorem running_iteration_poll (env : Env) (s : AppState) (rest : List ChannelRead)
    (k v : Nat) (hexit : s.exiting = false)
    (ha : s.active_screen_entry = some (k, v)) :
    (runIter env .empty s).1.filter TraceEv.isMsg = [TraceEv.msgDelivered k .tick] ∧
    runIter env .disconnected s = ([], .fault .eventSourceDisconnected) ∧
    runLoop env (.disconnected :: rest) s = ([], .fault .eventSourceDisconnected) := by
  refine ⟨?_, rfl, ?_⟩
  · rcases hu : env.upd v Message.tick with ⟨v2, copt⟩
    simp only [runIter, deliver, try_read_event, ha, hu]
    cases copt with
    | none => simp [TraceEv.isMsg]
    | some cmd =>
      rcases hc : handle_command env cmd
          { s with active_screen_entry := some (k, v2) } with ⟨s2, r⟩
      cases r with
      | none =>
        rcases ha2 : s2.active_screen_entry with _ | p
        · simp [hc, ha2, TraceEv.isMsg]
        · simp [hc, ha2, TraceEv.isMsg]
      | some e => simp [hc, TraceEv.isMsg]
  · rw [runLoop]
    simp [hexit, runIter, try_read_event]

/-- Witness for C4 at a concrete input: one iteration on an empty channel
delivers exactly `Tick` to the active screen, and a disconnected channel
aborts the loop with `EventSourceDisconnected` and an empty trace. -/
theorem running_iteration_poll_witness :
    ((runIter envW .empty sActive).1.filter TraceEv.isMsg
        = [TraceEv.msgDelivered 1 .tick] ∧
      runIter envW .disconnected sActive = ([], .fault .eventSourceDisconnected) ∧
      runLoop envW [.disconnected] sActive
        = ([], .fault .eventSourceDisconnected)) :=
  running_iteration_poll envW sActive [] 1 10 rfl rfl



/-- C6 counterexample: with the exiting flag set and a configured shutdown
callback whose command fails, the runtime does not set the listener's
cancellation flag and does not return normally, contradicting the claim's
unconditional "then set the listener's cancellation flag; then return". -/
theorem shutdown_sequence_counterexample :
    sExiting.exiting = true ∧
    TraceEv.cancelSet ∉ (runLoop envFailShutdown [] sExiting).1 ∧
    (runLoop envFailShutdown [] sExiting).2 = .fault (.missingScreen 0) := by
  refine ⟨rfl, ?_, rfl⟩
  decide

/-- C6 (amended): when the exiting flag is observed set at the top of an
iteration, the runtime delivers a `Shutdown` message to exactly the screens
held in the registry (none to the occupants of the active or previous slot),
then executes the shutdown command if one is configured, and — provided that
command succeeded (or none was configured) — then sets the listener's
cancellation flag and returns normally. -/
theorem shutdown_sequence_amended (env : Env) (reads : List ChannelRead)
    (s : AppState) (hexit : s.exiting = true)
    (hs : ∀ cmd, env.shutdown = some cmd →
        (handle_command env cmd (shutdown_screens env s)).2 = none)
    (hA : ∀ p : Nat × Nat, s.active_screen_entry = some p →
        p.1 ∉ s.screens.map Prod.fst)
    (hP : ∀ p : Nat × Nat, s.previous_screen_entry = some p →
        p.1 ∉ s.screens.map Prod.fst) :
    (runLoop env reads s).1 =
      shutdownTrace s
        ++ (match env.shutdown with
            | some _ => [TraceEv.shutdownCmdRun]
            | none => [])
        ++ [TraceEv.cancelSet] ∧
    (runLoop env reads s).2 =
      RunResult.ok (match env.shutdown with
        | none => shutdown_screens env s
        | some cmd => (handle_command env cmd (shutdown_screens env s)).1) ∧
    (∀ j, shutdownDelivered j ∈ (runLoop env reads s).1
        ↔ j ∈ s.screens.map Prod.fst) ∧
    (∀ p : Nat × Nat, s.active_screen_entry = some p →
        shutdownDelivered p.1 ∉ (runLoop env reads s).1) ∧
    (∀ p : Nat × Nat, s.previous_screen_entry = some p →
        shutdownDelivered p.1 ∉ (runLoop env reads s).1) := by
  have hmem : ∀ tail : List TraceEv,
      (∀ j, shutdownDelivered j ∉ tail) →
      ∀ j, (shutdownDelivered j ∈ shutdownTrace s ++ tail
        ↔ j ∈ s.screens.map Prod.fst) := by
    intro tail htail j
    rw [List.mem_append]
    constructor
    · rintro (hin | hin)
      · rcases List.mem_map.mp hin with ⟨p, hp, hpe⟩
        have : p.1 = j := by
          simpa [shutdownDelivered] using hpe
        exact this ▸ List.mem_map.mpr ⟨p, hp, rfl⟩
      · exact absurd hin (htail j)
    · intro hin
      rcases List.mem_map.mp hin with ⟨p, hp, hpe⟩
      exact Or.inl (List.mem_map.mpr ⟨p, hp, by simp [shutdownDelivered, hpe]⟩)
  rw [runLoop_exiting env reads s hexit]
  cases hsd : env.shutdown with
  | none =>
    simp only [shutdownSeq, hsd]
    have hm := hmem [TraceEv.cancelSet]
      (by intro j; simp [shutdownDelivered])
    refine ⟨by simp, by simp, hm, ?_, ?_⟩
    · intro p hp hin
      exact hA p hp ((hm p.1).mp hin)
    · intro p hp hin
      exact hP p hp ((hm p.1).mp hin)
  | some cmd =>
    have h2 := hs cmd hsd
    rcases hc : handle_command env cmd (shutdown_screens env s) with ⟨s2, r⟩
    rw [hc] at h2
    simp only at h2
    subst h2
    simp only [shutdownSeq, hsd, hc]
    have hm := hmem [TraceEv.shutdownCmdRun, TraceEv.cancelSet]
      (by intro j; simp [shutdownDelivered])
    refine ⟨by simp, by simp, ?_, ?_, ?_⟩
    · exact hm
    · intro p hp hin
      exact hA p hp ((hm p.1).mp hin)
    · intro p hp hin
      exact hP p hp ((hm p.1).mp hin)



/-- Witness for the amended C6 at a concrete input: the shutdown trace is
the two registry notifications, then the shutdown command, then the
cancellation signal; screen 2 (registry) is notified while screens 1
(active) and 4 (previous) are not. -/
theorem shutdown_sequence_amended_witness :
    (runLoop envQuitShutdown [] sExiting2).1 =
      shutdownTrace sExiting2 ++ [TraceEv.shutdownCmdRun] ++ [TraceEv.cancelSet] ∧
    (runLoop envQuitShutdown [] sExiting2).2 =
      RunResult.ok
        ((handle_command envQuitShutdown .quit
          (shutdown_screens envQuitShutdown sExiting2)).1) ∧
    (shutdownDelivered 2 ∈ (runLoop envQuitShutdown [] sExiting2).1
      ↔ 2 ∈ sExiting2.screens.map Prod.fst) ∧
    shutdownDelivered 1 ∉ (runLoop envQuitShutdown [] sExiting2).1 ∧
    shutdownDelivered 4 ∉ (runLoop envQuitShutdown [] sExiting2).1 := by
  have h := shutdown_sequence_amended envQuitShutdown [] sExiting2 rfl
    (by intro cmd hcmd; cases hcmd; rfl)
    (by intro p hp; cases hp; decide)
    (by intro p hp; cases hp; decide)
  exact ⟨h.1, h.2.1, h.2.2.1 2, h.2.2.2.1 (1, 10) rfl, h.2.2.2.2 (4, 40) rfl⟩

/-- C9: if the configured shutdown callback's command fails during the
shutdown sequence, the loop returns that fault and the listener's
cancellation flag is never signalled (no `cancelSet` ever enters the
trace). -/
theorem shutdown_callback_fault_no_cancel (env : Env) (reads : List ChannelRead)
    (s : AppState) (cmd : Command) (e : RuntimeError)
    (hexit : s.exiting = true) (hc : env.shutdown = some cmd)
    (hf : (handle_command env cmd (shutdown_screens env s)).2 = some e) :
    (runLoop env reads s).2 = .fault e ∧
    TraceEv.cancelSet ∉ (runLoop env reads s).1 := by
  rw [runLoop_exiting env reads s hexit]
  rcases hh : handle_command env cmd (shutdown_screens env s) with ⟨s2, r⟩
  rw [hh] at hf
  simp only at hf
  subst hf
  simp only [shutdownSeq, hc, hh]
  refine ⟨by simp, ?_⟩
  intro hin
  rcases List.mem_append.mp hin with hin | hin
  · rcases List.mem_map.mp hin with ⟨p, _, hpe⟩
    exact absurd hpe (by simp [shutdownDelivered])
  · simp at hin

/-- Witness for C9 at a concrete input: the shutdown callback's command
`Screen 0` fails with `MissingScreen 0`; the loop returns that fault and the
cancellation flag is never signalled. -/
theorem shutdown_callback_fault_no_cancel_witness :
    ((runLoop envFailShutdown [] sExiting).2 = .fault (.missingScreen 0) ∧
      TraceEv.cancelSet ∉ (runLoop envFailShutdown [] sExiting).1) :=
  shutdown_callback_fault_no_cancel envFailShutdown [] sExiting
    (.screen 0) (.missingScreen 0) rfl rfl rfl

/-- A successful activation leaves the active slot occupied. -/
theorem activate_screen_active_isSome (k : Nat) (s s1 : AppState)
    (h : activate_screen k s = .ok s1) :
    s1.active_screen_entry.isSome = true := by
  unfold activate_screen at h
  rcases hf : s.screens.find? (fun p => p.1 == k) with _ | entry <;> rw [hf] at h
  · cases h
  · rcases hp : s.previous_screen_entry with _ | q <;> rw [hp] at h <;>
      cases h <;> rfl

mutual

/-- No command execution empties the active slot: `activate_screen` either
succeeds (installing a new occupant) or fails before any mutation, and no
other command touches the slot. -/
theorem handle_command_active (env : Env) (c : Command) (s : AppState)
    (h : s.active_screen_entry.isSome = true) :
    ((handle_command env c s).1).active_screen_entry.isSome = true := by
  match c with
  | .batch cmds => exact handle_commands_active env cmds s h
  | .enableRawMode =>
    by_cases he : env.enableRawOk <;> simp [handle_command, he] <;> exact h
  | .disableRawMode =>
    by_cases he : env.disableRawOk <;> simp [handle_command, he] <;> exact h
  | .screen k =>
    rcases ha : activate_screen k s with j | s1
    · simp only [handle_command, ha]
      exact h
    · simp only [handle_command, ha]
      exact activate_screen_active_isSome k s s1 ha
  | .crossterm op =>
    cases op <;> simp [handle_command] <;> exact h
  | .quit =>
    simp only [handle_command]
    exact h

/-- Batch elements, executed in order, also never empty the active slot. -/
theorem handle_commands_active (env : Env) (cs : List Command) (s : AppState)
    (h : s.active_screen_entry.isSome = true) :
    ((handle_commands env cs s).1).active_screen_entry.isSome = true := by
  match cs with
  | [] => exact h
  | c :: rest =>
    have h1 := handle_command_active env c s h
    rcases hc : handle_command env c s with ⟨s1, r⟩
    rw [hc] at h1
    cases r with
    | none =>
      simp only [handle_commands, hc]
      exact handle_commands_active env rest s1 h1
    | some e =>
      simp only [handle_commands, hc]
      exact h1

end

/-- Message delivery started with an occupied active slot never hits an
unwrap of an empty slot, and when the iteration continues, the active slot
is still occupied. -/
theorem deliver_active (env : Env) (m : Message) (s : AppState)
    (h : s.active_screen_entry.isSome = true) :
    (deliver env m s).2 ≠ .panicked ∧
    ∀ s1, (deliver env m s).2 = .next s1 →
      s1.active_screen_entry.isSome = true := by
  rcases hsa : s.active_screen_entry with _ | kv
  · rw [hsa] at h
    cases h
  · obtain ⟨k, v⟩ := kv
    rcases hu : env.upd v m with ⟨v2, copt⟩
    cases copt with
    | none =>
      have hd : deliver env m s
          = ([TraceEv.msgDelivered k m, TraceEv.rendered k],
              .next { s with active_screen_entry := some (k, v2) }) := by
        simp [deliver, hsa, hu]
      rw [hd]
      refine ⟨by simp, ?_⟩
      intro s1 hs1
      cases hs1
      rfl
    | some cmd =>
      have h2 := handle_command_active env cmd
        { s with active_screen_entry := some (k, v2) } rfl
      rcases hc : handle_command env cmd
        { s with active_screen_entry := some (k, v2) } with ⟨s2, r⟩
      rw [hc] at h2
      cases r with
      | some e =>
        have hd : deliver env m s = ([TraceEv.msgDelivered k m], .fault e) := by
          simp [deliver, hsa, hu, hc]
        rw [hd]
        simp
      | none =>
        rcases ha2 : s2.active_screen_entry with _ | p
        · rw [ha2] at h2
          cases h2
        · have hd : deliver env m s
              = ([TraceEv.msgDelivered k m, TraceEv.rendered p.1], .next s2) := by
            simp [deliver, hsa, hu, hc, ha2]
          rw [hd]
          refine ⟨by simp, ?_⟩
          intro s1 hs1
          cases hs1
          exact h2

/-- A `Running` iteration started with an occupied active slot never
panics, and when it continues, the active slot is still occupied. -/
theorem runIter_next_active (env : Env) (r : ChannelRead) (s : AppState)
    (h : s.active_screen_entry.isSome = true) :
    (runIter env r s).2 ≠ .panicked ∧
    ∀ s1, (runIter env r s).2 = .next s1 →
      s1.active_screen_entry.isSome = true := by
  cases r with
  | disconnected => simp [runIter, try_read_event]
  | event e => exact deliver_active env (Message.ofEvent e) s h
  | empty => exact deliver_active env Message.tick s h

/-- The shutdown sequence never panics: it touches no unwrap of the active
slot. -/
theorem shutdownSeq_no_panic (env : Env) (s : AppState) :
    (shutdownSeq env s).2 ≠ RunResult.panicked := by
  unfold shutdownSeq
  cases hsd : env.shutdown with
  | none => simp
  | some cmd =>
    rcases hc : handle_command env cmd (shutdown_screens env s) with ⟨s2, r⟩
    cases r <;> simp [hc]

/-- The run loop, entered with an occupied active slot, never panics. -/
theorem runLoop_no_panic (env : Env) (reads : List ChannelRead) (s : AppState)
    (h : s.active_screen_entry.isSome = true) :
    (runLoop env reads s).2 ≠ RunResult.panicked := by
  induction reads generalizing s with
  | nil =>
    by_cases he : s.exiting
    · rw [runLoop_exiting env [] s he]
      exact shutdownSeq_no_panic env s
    · simp [runLoop, he]
  | cons r rest ih =>
    by_cases he : s.exiting
    · rw [runLoop_exiting env (r :: rest) s he]
      exact shutdownSeq_no_panic env s
    · obtain ⟨hnp, hnext⟩ := runIter_next_active env r s h
      rcases hi : runIter env r s with ⟨tr, out⟩
      rw [hi] at hnp hnext
      cases out with
      | fault e => simp [runLoop, he, hi]
      | panicked => exact absurd rfl hnp
      | next s1 =>
        simp only [runLoop, he, hi, Bool.false_eq_true, if_false]
        exact ih s1 (hnext s1 rfl)

/-- C10: `run` never panics — for every environment, initial key, channel
observation sequence and starting state: once the initial activation
succeeds the active slot is occupied, every later command execution keeps it
occupied, and both unwraps of the active entry (before `update` and before
`render`) are therefore safe; when the initial activation fails, `run`
returns the `MissingScreen` fault before ever unwrapping. -/
theorem active_slot_never_empty (env : Env) (initial : Nat)
    (reads : List ChannelRead) (s0 : AppState) :
    (run env initial reads s0).2 ≠ RunResult.panicked := by
  unfold run
  rcases hstart : (match env.startup with
      | none => (s0, none)
      | some cmd => handle_command env cmd s0) with ⟨s1, r⟩
  rw [hstart]
  cases r with
  | some e => simp
  | none =>
    rcases ha : activate_screen initial s1 with j | s2
    · simp [ha]
    · simp only [ha]
      exact runLoop_no_panic env reads s2
        (activate_screen_active_isSome initial s1 s2 ha)

end Ratata
